import Mathlib

/-!
Shallow embedding of the jeopardy game server core (src/errors.rs,
src/seed.rs, src/game/board.rs, src/game/mod.rs, src/server.rs).

Rust's `&mut self -> Result<(), Error>` operations are modelled as pure
functions `Game → ... → Option Error × Game` returning the error (if any)
together with the final game state, so that partial mutation on error
paths is represented faithfully.  `HashMap<PlayerId, Player>` is modelled
as an association list `List (PlayerId × Player)`; `Uuid`-based ids and
auth tokens are modelled as naturals compared by equality, which is the
only operation the code performs on them.  The `time_started` and the two
broadcast-channel name fields of `Game` are omitted: no modelled
operation reads or writes them.
-/

namespace Jeopardy

/-- Error enum from src/errors.rs (the variants reachable from the game core). -/
inductive Error where
  | LockTimeout
  | UnknownGame
  | BadArgument
  | InvalidStateForOperation
  | InvalidSquareStateTransition
  | DailyDoubleWagerOutOfRange
  | FinalJeopardyWagerOutOfRange
  | NoSuchPlayer
  | NotAllowed
  | InvalidSquare
  | TooManyDailyDoubles
  deriving Repr, DecidableEq

/-- Square flip state from src/game/board.rs. -/
inductive SquareState where
  | Normal
  | DailyDoubleRevealed
  | Flipped
  | Finished
  deriving Repr, DecidableEq

/-- Clue from src/game/board.rs: optional text, optional link. -/
structure Clue where
  text : Option String
  link : Option String
  deriving Repr, DecidableEq

/-- Square from src/game/board.rs. -/
structure Square where
  clue : Clue
  state : SquareState
  answer : String
  is_daily_double : Bool
  deriving Repr, DecidableEq

instance : Inhabited Square :=
  ⟨{ clue := { text := none, link := none }, state := SquareState.Normal,
     answer := "", is_daily_double := false }⟩

/-- Category from src/game/board.rs; `squares` holds the 5 rows top to bottom. -/
structure Category where
  title : String
  commentary : Option String
  air_year : Nat
  squares : List Square
  deriving Repr, DecidableEq

instance : Inhabited Category :=
  ⟨{ title := "", commentary := none, air_year := 0, squares := [] }⟩

/-- Seed from src/seed.rs: a 32-bit value (kept `< 2 ^ 32` by hypotheses). -/
structure Seed where
  value : Nat
  deriving Repr, DecidableEq

/-- Seed::with_seed from src/seed.rs. -/
def Seed.with_seed (value : Nat) : Seed := { value := value }

/-- Position of a word in the wordlist:
`WORDS.iter().position(|x| *x == part)` from the FromStr impl in
src/seed.rs (first match wins). -/
def wordPosition (words : List String) (part : String) : Option Nat :=
  match words with
  | [] => none
  | w :: ws => if w == part then some 0 else (wordPosition ws part).map (· + 1)

/-- The number of words the Display encoder for Seed emits: its loop runs
at offsets 0, b, 2b, … while the offset is < 32, i.e. ceil(32 / b)
iterations when b ≥ 1. -/
def seedWordCount (bits_per_digit : Nat) : Nat :=
  (32 + bits_per_digit - 1) / bits_per_digit

/-- The fmt::Display impl for Seed (src/seed.rs lines 35–53), at word
granularity: `bits_per_digit = floor(log2 |WORDS|)` (`Nat.log2` agrees
with the source's f64 `log2().floor()` on the crate's list size) and the
k-th emitted word is `WORDS[(value >> k*b) & (2^b - 1)]`.  The wordlist of
the external memorable_wordlist crate is a parameter; the final
`join(" ")`, undone by `split_whitespace` in FromStr, is elided. -/
def Seed.toWords (words : List String) (s : Seed) : List String :=
  let b := Nat.log2 words.length
  (List.range (seedWordCount b)).map
    (fun k => words.getD ((s.value >>> (k * b)) &&& (2 ^ b - 1)) "")

/-- The accumulation loop of the FromStr impl for Seed (src/seed.rs lines
65–74): `value |= (index as u32).checked_shl(mantissa).ok_or(())?`, where
the u32 shift fails for mantissa ≥ 32 and otherwise truncates to 32 bits,
then `mantissa += bits_per_digit`. -/
def seedDecodeLoop (words : List String) (b : Nat) :
    List String → Nat → Nat → Option Nat
  | [], value, _ => some value
  | part :: parts, value, mantissa =>
      match wordPosition words part with
      | none => none
      | some index =>
          if 32 ≤ mantissa then none
          else
            seedDecodeLoop words b parts (value ||| ((index <<< mantissa) % 2 ^ 32))
              (mantissa + b)

/-- The FromStr impl for Seed (src/seed.rs lines 54–78) at word
granularity: rejects when the supplied words cannot cover 32 bits, then
runs the accumulation loop from value 0 and mantissa 0. -/
def Seed.fromWords (words : List String) (parts : List String) : Option Seed :=
  let b := Nat.log2 words.length
  if parts.length * b < 32 then none
  else (seedDecodeLoop words b parts 0 0).map Seed.with_seed

/-- The value the decode loop reconstructs from the encoded groups of `x`
starting at group j, as a plain OR of the 32-bit-truncated shifted groups
(a proof-side restatement of the loop's accumulator). -/
def orBits (x b : Nat) : Nat → Nat → Nat
  | 0, _ => 0
  | m + 1, j =>
      ((((x >>> (j * b)) &&& (2 ^ b - 1)) <<< (j * b)) % 2 ^ 32) ||| orBits x b m (j + 1)

/-- CATEGORY_HEIGHT constant from src/game/board.rs. -/
def CATEGORY_HEIGHT : Nat := 5

/-- Location from src/game/board.rs: zero-based category and row indices. -/
structure Location where
  category : Nat
  row : Nat
  deriving Repr, DecidableEq

/-- Location::new from src/game/board.rs.  The source returns
`Some(Location { category, row })` unconditionally: despite the `Option`
return type it performs no bounds check. -/
def Location.new (category row : Nat) : Option Location :=
  some { category := category, row := row }

/-- In-place list update at an index (a no-op out of range; the Rust code
would panic there, and every theorem that relies on an update carries
in-bounds hypotheses). -/
def listModify (f : α → α) : Nat → List α → List α
  | _, [] => []
  | 0, x :: xs => f x :: xs
  | n + 1, x :: xs => x :: listModify f n xs

/-- JeopardyBoard from src/game/board.rs. -/
structure JeopardyBoard where
  categories : List Category
  value_multiplier : Int
  etag : Nat
  id : Nat
  seed : Seed
  deriving Repr, DecidableEq

/-- DUMMY_BOARD constant from src/game/board.rs, swapped into a state while
its real board moves to the next state. -/
def DUMMY_BOARD : JeopardyBoard :=
  { categories := [], value_multiplier := 0, etag := 0, id := 0, seed := { value := 0 } }

/-- JeopardyBoard::get_square (shared access, no etag bump). -/
def JeopardyBoard.get_square (b : JeopardyBoard) (loc : Location) : Square :=
  ((b.categories.getD loc.category default).squares.getD loc.row default)

/-- The combination of JeopardyBoard::get_square_mut with a mutation of the
returned square: bumps the etag and rewrites the addressed square. -/
def JeopardyBoard.mutateSquare (b : JeopardyBoard) (loc : Location) (f : Square → Square) :
    JeopardyBoard :=
  { b with
    etag := b.etag + 1,
    categories :=
      listModify (fun cat => { cat with squares := listModify f loc.row cat.squares })
        loc.category b.categories }

/-- JeopardyBoard::get_square_value from src/game/board.rs:
`value_multiplier * (1 + row)`. -/
def JeopardyBoard.get_square_value (b : JeopardyBoard) (loc : Location) : Int :=
  b.value_multiplier * (1 + (loc.row : Int))

/-- Square::flip from src/game/board.rs. -/
def Square.flip (sq : Square) : Except Error Square :=
  match sq.state with
  | SquareState.Normal =>
      Except.ok { sq with
        state := if sq.is_daily_double then SquareState.DailyDoubleRevealed
                 else SquareState.Flipped }
  | _ => Except.error Error.InvalidSquareStateTransition

/-- Square::finish from src/game/board.rs. -/
def Square.finish (sq : Square) : Except Error Square :=
  match sq.state with
  | SquareState.Flipped => Except.ok { sq with state := SquareState.Finished }
  | SquareState.DailyDoubleRevealed => Except.ok { sq with state := SquareState.Finished }
  | _ => Except.error Error.InvalidSquareStateTransition

/-- Square::set_flip_state from src/game/board.rs. -/
def Square.set_flip_state (sq : Square) (st : SquareState) : Square :=
  { sq with state := st }

/-- Player ids are opaque 128-bit values compared by equality; modelled as ℕ. -/
abbrev PlayerId := Nat

/-- Auth tokens are opaque 128-bit values compared by equality; modelled as ℕ. -/
abbrev AuthToken := Nat

/-- FinalJeopardyInfo from src/game/mod.rs. -/
structure FinalJeopardyInfo where
  wager : Option Int
  answer : Option String
  wager_revealed : Bool
  answer_revealed : Bool
  deriving Repr, DecidableEq

/-- Player from src/game/mod.rs. -/
structure Player where
  name : String
  score : Int
  auth : AuthToken
  avatar_url : String
  final_jeopardy_info : FinalJeopardyInfo
  deriving Repr, DecidableEq

/-- Player::check_auth from src/game/mod.rs. -/
def Player.check_auth (p : Player) (auth : AuthToken) : Bool :=
  p.auth = auth

/-- The wamp_async `Arg` value type, restricted to the variants the
serializers use. `WampDict` insertion is modelled as an ordered
association list, recording the exact sequence of inserts the code makes. -/
inductive Arg where
  | string : String → Arg
  | integer : Int → Arg
  | bool : Bool → Arg
  | noneA : Arg
  | dict : List (String × Arg) → Arg
  | listA : List Arg → Arg
  deriving Repr

/-- Player::serialize from src/game/mod.rs (lines 79–127): name, score,
avatar URL and the audience-filtered final-jeopardy sub-record.  The auth
token field is never read. -/
def Player.serialize (p : Player) (for_moderator : Bool) : List (String × Arg) :=
  [("name", Arg.string p.name),
   ("score", Arg.string (toString p.score)),
   ("avatar_url", Arg.string p.avatar_url),
   ("final_jeopardy_info", Arg.dict (
     (if p.final_jeopardy_info.wager_revealed || for_moderator then
        [("wager",
          match p.final_jeopardy_info.wager with
          | some w => Arg.string (toString w)
          | none => Arg.noneA)]
      else []) ++
     (if p.final_jeopardy_info.answer_revealed || for_moderator then
        [("answer",
          match p.final_jeopardy_info.answer with
          | some a => Arg.string a
          | none => Arg.noneA)]
      else []) ++
     (if for_moderator then
        [("wager_revealed", Arg.bool p.final_jeopardy_info.wager_revealed),
         ("answer_revealed", Arg.bool p.final_jeopardy_info.answer_revealed)]
      else [])))]

/-- DAILY_DOUBLE_WEIGHTS from src/game/board.rs (raw counts
10, 433, 998, 1433, 945); the weights enter the sampler only through the
per-candidate sort key `u.powf(1.0 / weight)`. -/
def DAILY_DOUBLE_WEIGHTS : List ℚ :=
  [2 / 1000, 113 / 1000, 261 / 1000, 375 / 1000, 247 / 1000]

/-- Location::gen_random_locations from src/game/board.rs (lines 33–87),
the Efraimidis–Spirakis weighted reservoir: for each flat candidate index
`i < categories * CATEGORY_HEIGHT` the code draws `u ~ Uniform(0,1)` from
the caller's generator and computes the f64 sort key
`u.powf(1.0 / DAILY_DOUBLE_WEIGHTS[i % 5])`; candidates are sorted by key
descending and the first n are kept, recovering `row = i % 5` and
`category = i / 5`.  The generator draw and the key computation are
modelled together as an arbitrary rational key stream `keys` (candidate i
receives the key `keys i`): the claimed properties hold for every key
stream, hence in particular for the one the seeded ChaCha generator
produces, and equal streams model the determinism of a fixed seed. -/
def Location.gen_random_locations (keys : Nat → ℚ) (n categories : Nat) :
    Option (List Location) :=
  if n > categories * CATEGORY_HEIGHT then none
  else
    some (((((List.range (categories * CATEGORY_HEIGHT)).map
        (fun i => (i, keys i))).mergeSort (fun a b => decide (b.2 ≤ a.2))).take n).map
      (fun item =>
        { row := item.1 % CATEGORY_HEIGHT, category := item.1 / CATEGORY_HEIGHT }))

/-- AnswerType from src/game/mod.rs. -/
inductive AnswerType where
  | Correct
  | Incorrect
  | Skip
  deriving Repr, DecidableEq

/-- PlayerType from src/game/mod.rs. -/
inductive PlayerType where
  | Moderator
  | Player
  deriving Repr, DecidableEq

/-- MIN_DAILY_DOUBLE_WAGER constant from src/game/mod.rs. -/
def MIN_DAILY_DOUBLE_WAGER : Int := 5

/-- MIN_MAX_DAILY_DOUBLE_WAGER_FACTOR constant from src/game/mod.rs. -/
def MIN_MAX_DAILY_DOUBLE_WAGER_FACTOR : Int := 50

/-- GameState enum from src/game/mod.rs (the `Box` around boards is erased). -/
inductive GameState where
  | NoBoard
  | WaitingForSquareSelection (board : JeopardyBoard) (controller : Option PlayerId)
  | WaitingForEnableBuzzer (board : JeopardyBoard) (location : Location) (controller : PlayerId)
  | WaitingForDailyDoubleWager (board : JeopardyBoard) (location : Location)
      (controller : PlayerId)
  | WaitingForBuzzer (board : JeopardyBoard) (location : Location) (controller : PlayerId)
  | WaitingForAnswer (board : JeopardyBoard) (location : Location) (controller : PlayerId)
      (active_player : PlayerId) (value : Int)
  | FinalJeopardy (category_name : String) (question : Clue) (answer : String)
      (question_revealed : Bool) (answers_locked : Bool)
  deriving Repr, DecidableEq

/-- Game from src/game/mod.rs (timestamp and channel-name fields omitted:
no modelled operation touches them). -/
structure Game where
  moderator_id : PlayerId
  moderator : Player
  players : List (PlayerId × Player)
  state : GameState
  next_board_id : Nat
  is_ended : Bool
  deriving Repr, DecidableEq

/-- The effect of `players.get_mut(id)` followed by a mutation: rewrite the
entry with the given key. -/
def updPlayer (ps : List (PlayerId × Player)) (id : PlayerId) (f : Player → Player) :
    List (PlayerId × Player) :=
  ps.map (fun pr => if pr.1 = id then (pr.1, f pr.2) else pr)

/-- Game::auth_and_get_player_type from src/game/mod.rs. -/
def Game.auth_and_get_player_type (g : Game) (id : PlayerId) (auth : AuthToken) :
    Option PlayerType :=
  if id = g.moderator_id ∧ g.moderator.check_auth auth then some PlayerType.Moderator
  else
    match g.players.lookup id with
    | none => none
    | some p => if p.check_auth auth then some PlayerType.Player else none

/-- Game::remove_player from src/game/mod.rs (lines 449–659).  Returns the
Rust function's boolean result together with the final game. -/
def Game.remove_player (g : Game) (pid : PlayerId) : Bool × Game :=
  if (g.players.lookup pid).isNone then (false, g)
  else
    let players' := g.players.filter (fun pr => pr.1 ≠ pid)
    let new_player : Option PlayerId := players'.head?.map Prod.fst
    match g.state, new_player with
    | GameState.NoBoard, _ => (true, { g with players := players' })
    | GameState.WaitingForSquareSelection board c, np =>
        let st := GameState.WaitingForSquareSelection board (if c = some pid then np else c)
        (true, { g with players := players', state := st })
    | GameState.WaitingForBuzzer board l c, some np =>
        let st := GameState.WaitingForBuzzer board l (if c = pid then np else c)
        (true, { g with players := players', state := st })
    | GameState.WaitingForEnableBuzzer board l c, some np =>
        let st := GameState.WaitingForEnableBuzzer board l (if c = pid then np else c)
        (true, { g with players := players', state := st })
    | GameState.WaitingForBuzzer board l c, none
    | GameState.WaitingForEnableBuzzer board l c, none =>
        if c = pid then
          let b' := board.mutateSquare l (fun sq => sq.set_flip_state SquareState.Finished)
          (true, { g with
                   players := players',
                   state := GameState.WaitingForSquareSelection b' none })
        else
          (true, { g with players := players', state := GameState.WaitingForBuzzer board l c })
    | GameState.WaitingForAnswer board l c act v, np =>
        let new_controller := if c = pid then np else some c
        if act = pid then
          let b' := board.mutateSquare l (fun sq => sq.set_flip_state SquareState.Finished)
          (true, { g with
                   players := players',
                   state := GameState.WaitingForSquareSelection b' new_controller })
        else
          -- the Rust code unwraps new_controller here; `none` is unreachable
          -- (it would require controller = active_player = pid together with
          -- act ≠ pid), so the default is never used
          let st := GameState.WaitingForAnswer board l (new_controller.getD c) act v
          (true, { g with players := players', state := st })
    | GameState.WaitingForDailyDoubleWager board l c, np =>
        if c = pid then
          let b' := board.mutateSquare l (fun sq => sq.set_flip_state SquareState.Finished)
          (true, { g with
                   players := players',
                   state := GameState.WaitingForSquareSelection b' np })
        else
          let st := GameState.WaitingForDailyDoubleWager board l c
          (true, { g with players := players', state := st })
    | GameState.FinalJeopardy _ _ _ _ _, _ => (true, { g with players := players' })

/-- Game::select_square from src/game/mod.rs (lines 791–821). -/
def Game.select_square (g : Game) (loc : Location) : Option Error × Game :=
  match g.state with
  | GameState.WaitingForSquareSelection board (some ctrl) =>
      match (board.get_square loc).flip with
      | Except.error e =>
          -- get_square_mut bumped the etag before flip failed
          let b' := board.mutateSquare loc id
          (some e, { g with state := GameState.WaitingForSquareSelection b' (some ctrl) })
      | Except.ok sq' =>
          let board' := board.mutateSquare loc (fun _ => sq')
          if (board'.get_square loc).is_daily_double then
            (none, { g with state := GameState.WaitingForDailyDoubleWager board' loc ctrl })
          else
            (none, { g with state := GameState.WaitingForEnableBuzzer board' loc ctrl })
  | _ => (some Error.InvalidStateForOperation, g)

/-- Game::enable_buzzer from src/game/mod.rs. -/
def Game.enable_buzzer (g : Game) : Option Error × Game :=
  match g.state with
  | GameState.WaitingForEnableBuzzer board loc ctrl =>
      (none, { g with state := GameState.WaitingForBuzzer board loc ctrl })
  | _ => (some Error.InvalidStateForOperation, g)

/-- Game::submit_wager from src/game/mod.rs (lines 846–896). -/
def Game.submit_wager (g : Game) (caller : PlayerId) (wager : Int) : Option Error × Game :=
  match g.state with
  | GameState.WaitingForDailyDoubleWager board loc ctrl =>
      if ctrl = caller then
        if wager < MIN_DAILY_DOUBLE_WAGER then (some Error.DailyDoubleWagerOutOfRange, g)
        else
          match g.players.lookup ctrl with
          | none => (some Error.NoSuchPlayer, g)
          | some p =>
              let max_default_bid := MIN_MAX_DAILY_DOUBLE_WAGER_FACTOR * board.value_multiplier
              let max_bid := max max_default_bid p.score
              if max_bid < wager then (some Error.DailyDoubleWagerOutOfRange, g)
              else
                (none, { g with
                         state := GameState.WaitingForAnswer board loc ctrl ctrl wager })
      else (some Error.InvalidStateForOperation, g)
  | GameState.FinalJeopardy _ _ _ false _ =>
      match g.players.lookup caller with
      | some p =>
          if wager < 0 ∨ p.score < wager then (some Error.FinalJeopardyWagerOutOfRange, g)
          else
            (none, { g with
              players := updPlayer g.players caller (fun pl =>
                { pl with final_jeopardy_info :=
                    { pl.final_jeopardy_info with wager := some wager } }) })
      | none => (none, g)
  | _ => (some Error.InvalidStateForOperation, g)

/-- Game::buzz from src/game/mod.rs (lines 1006–1035). -/
def Game.buzz (g : Game) (id : PlayerId) : Option Error × Game :=
  match g.state with
  | GameState.WaitingForBuzzer board loc ctrl =>
      if (g.players.lookup id).isNone then (some Error.NoSuchPlayer, g)
      else
        let value := board.get_square_value loc
        (none, { g with state := GameState.WaitingForAnswer board loc ctrl id value })
  | _ => (some Error.InvalidStateForOperation, g)

/-- Game::answer from src/game/mod.rs (lines 1037–1135).  The error paths
after a mutation keep the mutation, exactly as the Rust code does (the swap
of the real board for DUMMY_BOARD, and the score update before the failing
`finish`, both persist). -/
def Game.answer (g : Game) (a : AnswerType) : Option Error × Game :=
  match g.state, a with
  | GameState.WaitingForAnswer board loc ctrl act v, AnswerType.Correct =>
      match g.players.lookup act with
      | none => (some Error.NoSuchPlayer, g)
      | some _ =>
          let players' := updPlayer g.players act (fun p => { p with score := p.score + v })
          match (board.get_square loc).finish with
          | Except.error e =>
              (some e, { g with
                         players := players',
                         state := GameState.WaitingForAnswer DUMMY_BOARD loc ctrl act v })
          | Except.ok sq' =>
              let b' := board.mutateSquare loc (fun _ => sq')
              (none, { g with
                       players := players',
                       state := GameState.WaitingForSquareSelection b' (some act) })
  | GameState.WaitingForAnswer board loc ctrl act v, AnswerType.Incorrect =>
      match g.players.lookup act with
      | none => (some Error.NoSuchPlayer, g)
      | some _ =>
          let players' := updPlayer g.players act (fun p => { p with score := p.score - v })
          (none, { g with
                   players := players',
                   state := GameState.WaitingForBuzzer board loc ctrl })
  | GameState.WaitingForAnswer board loc ctrl act v, AnswerType.Skip =>
      match (board.get_square loc).finish with
      | Except.error e =>
          (some e, { g with state := GameState.WaitingForAnswer DUMMY_BOARD loc ctrl act v })
      | Except.ok sq' =>
          let b' := board.mutateSquare loc (fun _ => sq')
          (none, { g with state := GameState.WaitingForSquareSelection b' (some ctrl) })
  | GameState.WaitingForBuzzer board loc ctrl, AnswerType.Skip =>
      match (board.get_square loc).finish with
      | Except.error e =>
          (some e, { g with state := GameState.WaitingForBuzzer DUMMY_BOARD loc ctrl })
      | Except.ok sq' =>
          let b' := board.mutateSquare loc (fun _ => sq')
          (none, { g with state := GameState.WaitingForSquareSelection b' (some ctrl) })
  | GameState.WaitingForDailyDoubleWager board loc ctrl, AnswerType.Skip =>
      match (board.get_square loc).finish with
      | Except.error e =>
          (some e, { g with state := GameState.WaitingForDailyDoubleWager DUMMY_BOARD loc ctrl })
      | Except.ok sq' =>
          let b' := board.mutateSquare loc (fun _ => sq')
          (none, { g with state := GameState.WaitingForSquareSelection b' (some ctrl) })
  | _, _ => (some Error.InvalidStateForOperation, g)

/-- Game::set_square_state from src/game/mod.rs (lines 1137–1154): the
moderator override, accepted in exactly four of the board-carrying states. -/
def Game.set_square_state (g : Game) (loc : Location) (st : SquareState) :
    Option Error × Game :=
  match g.state with
  | GameState.WaitingForSquareSelection board c =>
      let b' := board.mutateSquare loc (fun sq => sq.set_flip_state st)
      (none, { g with state := GameState.WaitingForSquareSelection b' c })
  | GameState.WaitingForDailyDoubleWager board l c =>
      let b' := board.mutateSquare loc (fun sq => sq.set_flip_state st)
      (none, { g with state := GameState.WaitingForDailyDoubleWager b' l c })
  | GameState.WaitingForBuzzer board l c =>
      let b' := board.mutateSquare loc (fun sq => sq.set_flip_state st)
      (none, { g with state := GameState.WaitingForBuzzer b' l c })
  | GameState.WaitingForAnswer board l c act v =>
      let b' := board.mutateSquare loc (fun sq => sq.set_flip_state st)
      (none, { g with state := GameState.WaitingForAnswer b' l c act v })
  | _ => (some Error.InvalidStateForOperation, g)

/-- The select_square handler from src/server.rs (lines 280–316): the
authorization gate plus the dispatch into `Game::select_square`.  The
handler accepts the request only when the caller authenticates as the
moderator; any other caller gets `NotAllowed` and the game is untouched. -/
def server_select_square (g : Game) (player_id : PlayerId) (auth : AuthToken)
    (category row : Nat) : Option Error × Game :=
  if g.auth_and_get_player_type player_id auth = some PlayerType.Moderator then
    match Location.new category row with
    | none => (some Error.InvalidSquare, g)
    | some loc => g.select_square loc
  else (some Error.NotAllowed, g)

/-- A location is addressable on a board (the Rust indexing would not
panic there). -/
def JeopardyBoard.locInBounds (b : JeopardyBoard) (loc : Location) : Prop :=
  loc.category < b.categories.length ∧
    loc.row < (b.categories.getD loc.category default).squares.length

instance (b : JeopardyBoard) (loc : Location) : Decidable (b.locInBounds loc) := by
  unfold JeopardyBoard.locInBounds; infer_instance

/-- A sample player used by concrete witness games. -/
def exPlayer (auth : AuthToken) (score : Int) : Player :=
  { name := "player", score := score, auth := auth, avatar_url := "",
    final_jeopardy_info :=
      { wager := none, answer := none, wager_revealed := false, answer_revealed := false } }

/-- A sample square (Normal, not a daily double). -/
def exSquare : Square :=
  { clue := { text := some "clue", link := none }, state := SquareState.Normal,
    answer := "answer", is_daily_double := false }

/-- A sample one-category 5-row grid. -/
def exCategory : Category :=
  { title := "history", commentary := none, air_year := 1992,
    squares := List.replicate 5 exSquare }

/-- A sample board with value multiplier 200. -/
def exBoard : JeopardyBoard :=
  { categories := [exCategory], value_multiplier := 200, etag := 0, id := 1,
    seed := { value := 0 } }

/-- exBoard with the row-2 square of category 0 already flipped. -/
def exFlippedBoard : JeopardyBoard :=
  exBoard.mutateSquare { category := 0, row := 2 }
    (fun sq => sq.set_flip_state SquareState.Flipped)

/-- A game with no board (state NoBoard). -/
def exNoBoardGame : Game :=
  { moderator_id := 0, moderator := exPlayer 100 0, players := [(1, exPlayer 101 0)],
    state := GameState.NoBoard, next_board_id := 0, is_ended := false }

/-- A game stopped in WaitingForAnswer on the flipped row-2 square, player 1
active with value 600. -/
def exWFAGame : Game :=
  { moderator_id := 0, moderator := exPlayer 100 0, players := [(1, exPlayer 101 0)],
    state := GameState.WaitingForAnswer exFlippedBoard { category := 0, row := 2 } 1 1 600,
    next_board_id := 1, is_ended := false }

/-- A game in WaitingForBuzzer on the flipped row-2 square of a
multiplier-200 board, with a registered player of score 0. -/
def exBuzzGame : Game :=
  { moderator_id := 0, moderator := exPlayer 100 0, players := [(1, exPlayer 101 0)],
    state := GameState.WaitingForBuzzer exFlippedBoard { category := 0, row := 2 } 1,
    next_board_id := 1, is_ended := false }

/-- A game in WaitingForDailyDoubleWager with controller 1 whose score is
100, on a multiplier-200 board. -/
def exWagerGame : Game :=
  { moderator_id := 0, moderator := exPlayer 100 0, players := [(1, exPlayer 101 100)],
    state := GameState.WaitingForDailyDoubleWager exBoard { category := 0, row := 2 } 1,
    next_board_id := 1, is_ended := false }

/-- A game in WaitingForSquareSelection with controller 1 (one registered
player), used for the select_square and set_square_state claims. -/
def exSelectGame : Game :=
  { moderator_id := 0, moderator := exPlayer 100 0, players := [(1, exPlayer 101 0)],
    state := GameState.WaitingForSquareSelection exBoard (some 1),
    next_board_id := 1, is_ended := false }

/-- A game in WaitingForEnableBuzzer (board present), used for the
set_square_state claim. -/
def exEnableGame : Game :=
  { moderator_id := 0, moderator := exPlayer 100 0, players := [(1, exPlayer 101 0)],
    state := GameState.WaitingForEnableBuzzer exBoard { category := 0, row := 0 } 1,
    next_board_id := 1, is_ended := false }

/-- A game in WaitingForBuzzer whose controller 1 has one other registered
player 2, used for the remove_player claim. -/
def exRemoveTwoGame : Game :=
  { moderator_id := 0, moderator := exPlayer 100 0,
    players := [(1, exPlayer 101 0), (2, exPlayer 102 0)],
    state := GameState.WaitingForBuzzer exFlippedBoard { category := 0, row := 2 } 1,
    next_board_id := 1, is_ended := false }

/-- A game in WaitingForEnableBuzzer whose controller 1 is the only
registered player, used for the remove_player claim. -/
def exRemoveOneGame : Game :=
  { moderator_id := 0, moderator := exPlayer 100 0, players := [(1, exPlayer 101 0)],
    state := GameState.WaitingForEnableBuzzer exFlippedBoard { category := 0, row := 2 } 1,
    next_board_id := 1, is_ended := false }

/-- Looking a player up after `updPlayer` rewrites them with `f`. -/
theorem lookup_updPlayer_self (ps : List (PlayerId × Player)) (id : PlayerId)
    (f : Player → Player) :
    (updPlayer ps id f).lookup id = (ps.lookup id).map f := by
  induction ps with
  | nil => rfl
  | cons pr ps ih =>
      obtain ⟨k, v⟩ := pr
      by_cases hk : k = id
      · subst hk
        simp [updPlayer, List.lookup_cons]
      · simp [updPlayer, List.lookup_cons, hk, beq_false_of_ne (Ne.symm hk)]
        simpa [updPlayer] using ih

/-- listModify rewrites exactly the targeted index. -/
theorem listModify_getD (f : α → α) (n : Nat) (l : List α) (d : α) (h : n < l.length) :
    (listModify f n l).getD n d = f (l.getD n d) := by
  induction l generalizing n with
  | nil => simp at h
  | cons x xs ih =>
      cases n with
      | zero => rfl
      | succ n =>
          simp only [listModify, List.getD_cons_succ]
          exact ih n (by simpa using h)

/-- Reading back the mutated square. -/
theorem mutateSquare_get_square (b : JeopardyBoard) (loc : Location) (f : Square → Square)
    (h : b.locInBounds loc) :
    (b.mutateSquare loc f).get_square loc = f (b.get_square loc) := by
  obtain ⟨h1, h2⟩ := h
  unfold JeopardyBoard.mutateSquare JeopardyBoard.get_square
  simp only
  rw [listModify_getD _ _ _ _ h1]
  simp only
  rw [listModify_getD _ _ _ _ h2]

/-- C8: the claim says `Location::new` validates `row < 5` and
`category < category_count` and yields `InvalidSquare` otherwise.  The code
(src/game/board.rs lines 27–29) returns `Some` for every pair, so the
`ok_or(Error::InvalidSquare)` at its call sites can never fire; here it is
evaluated at the out-of-bounds pair `(7, 9)`, which the claim says must be
rejected. -/
theorem location_new_accepts_out_of_bounds :
    Location.new 7 9 = some { category := 7, row := 9 } := rfl

/-- C9: the serialized Player record is independent of the auth token: two
players identical except for their auth token serialize to identical output
for both audiences. -/
theorem player_serialize_never_leaks_auth (p : Player) (a₁ a₂ : AuthToken)
    (for_moderator : Bool) :
    Player.serialize { p with auth := a₁ } for_moderator =
      Player.serialize { p with auth := a₂ } for_moderator := rfl

/-- C1: `answer(Correct)` is only accepted from `WaitingForAnswer`: from any
other state it fails with `InvalidStateForOperation` and leaves the whole
game (state, board, players, scores) unchanged; from `WaitingForAnswer` it
is accepted, given the invariants of reachable games (the active player is
registered and the open square was flipped by the selection step). -/
theorem answer_correct_state_legality (g : Game) :
    ((∀ b l c a v, g.state ≠ GameState.WaitingForAnswer b l c a v) →
      g.answer AnswerType.Correct = (some Error.InvalidStateForOperation, g)) ∧
    (∀ b l c a v p, g.state = GameState.WaitingForAnswer b l c a v →
      g.players.lookup a = some p →
      ((b.get_square l).state = SquareState.Flipped ∨
        (b.get_square l).state = SquareState.DailyDoubleRevealed) →
      (g.answer AnswerType.Correct).1 = none) := by
  obtain ⟨mid, mod, players, state, nbi, ended⟩ := g
  constructor
  · intro h
    cases state with
    | WaitingForAnswer b l c a v => exact absurd rfl (h b l c a v)
    | NoBoard => rfl
    | WaitingForSquareSelection b c => rfl
    | WaitingForEnableBuzzer b l c => rfl
    | WaitingForDailyDoubleWager b l c => rfl
    | WaitingForBuzzer b l c => rfl
    | FinalJeopardy cn q ans qr al => rfl
  · intro b l c a v p hst hlook hsq
    simp only at hst
    subst hst
    simp only [Game.answer, hlook]
    rcases hsq with hsq | hsq <;>
      simp [Square.finish, hsq]

/-- C1 witness: a NoBoard game rejects `answer(Correct)` untouched, and a
WaitingForAnswer game accepts it. -/
theorem answer_correct_state_legality_witness :
    (exNoBoardGame.answer AnswerType.Correct =
      (some Error.InvalidStateForOperation, exNoBoardGame)) ∧
    (exWFAGame.answer AnswerType.Correct).1 = none := by
  constructor
  · exact (answer_correct_state_legality exNoBoardGame).1
      (by intro b l c a v h; simp [exNoBoardGame] at h)
  · exact (answer_correct_state_legality exWFAGame).2 exFlippedBoard
      { category := 0, row := 2 } 1 1 600 (exPlayer 101 0) rfl (by decide)
      (Or.inl (by decide))

/-- C10: the moderator square-state override fails with
`InvalidStateForOperation` (game untouched) in `WaitingForEnableBuzzer`
even though a board is present, while it succeeds in each of the other four
board-carrying states (for an addressable location, where the Rust indexing
does not panic). -/
theorem set_square_state_legality (g : Game) (loc : Location) (st : SquareState) :
    (∀ b l c, g.state = GameState.WaitingForEnableBuzzer b l c →
      g.set_square_state loc st = (some Error.InvalidStateForOperation, g)) ∧
    (∀ b c, g.state = GameState.WaitingForSquareSelection b c → b.locInBounds loc →
      (g.set_square_state loc st).1 = none) ∧
    (∀ b l c, g.state = GameState.WaitingForDailyDoubleWager b l c → b.locInBounds loc →
      (g.set_square_state loc st).1 = none) ∧
    (∀ b l c, g.state = GameState.WaitingForBuzzer b l c → b.locInBounds loc →
      (g.set_square_state loc st).1 = none) ∧
    (∀ b l c a v, g.state = GameState.WaitingForAnswer b l c a v → b.locInBounds loc →
      (g.set_square_state loc st).1 = none) := by
  obtain ⟨mid, mod, players, state, nbi, ended⟩ := g
  refine ⟨?_, ?_, ?_, ?_, ?_⟩
  · intro b l c hst
    simp only at hst
    subst hst
    rfl
  · intro b c hst _
    simp only at hst
    subst hst
    rfl
  · intro b l c hst _
    simp only at hst
    subst hst
    rfl
  · intro b l c hst _
    simp only at hst
    subst hst
    rfl
  · intro b l c a v hst _
    simp only at hst
    subst hst
    rfl

/-- C10 witness: the override is rejected in WaitingForEnableBuzzer and
accepted in WaitingForSquareSelection on the same board. -/
theorem set_square_state_legality_witness :
    exEnableGame.set_square_state { category := 0, row := 0 } SquareState.Finished =
      (some Error.InvalidStateForOperation, exEnableGame) ∧
    (exSelectGame.set_square_state { category := 0, row := 0 } SquareState.Finished).1 =
      none := by
  constructor
  · exact (set_square_state_legality exEnableGame { category := 0, row := 0 }
      SquareState.Finished).1 exBoard { category := 0, row := 0 } 1 rfl
  · exact (set_square_state_legality exSelectGame { category := 0, row := 0 }
      SquareState.Finished).2.1 exBoard (some 1) rfl (by decide)

/-- C3: from `WaitingForDailyDoubleWager` with controller C registered, a
wager w submitted by C succeeds exactly when
`MIN_DAILY_DOUBLE_WAGER ≤ w ≤ max (50 * multiplier) score`, and violating
either bound fails with `DailyDoubleWagerOutOfRange` leaving the game
unchanged (the concrete multiplier-200 / score-100 instance, where 10000
succeeds and 10001 fails, is the witness below). -/
theorem submit_wager_daily_double_iff (g : Game) (board : JeopardyBoard) (loc : Location)
    (ctrl : PlayerId) (p : Player) (w : Int)
    (hst : g.state = GameState.WaitingForDailyDoubleWager board loc ctrl)
    (hlook : g.players.lookup ctrl = some p) :
    ((g.submit_wager ctrl w).1 = none ↔
      MIN_DAILY_DOUBLE_WAGER ≤ w ∧
        w ≤ max (MIN_MAX_DAILY_DOUBLE_WAGER_FACTOR * board.value_multiplier) p.score) ∧
    (¬(MIN_DAILY_DOUBLE_WAGER ≤ w ∧
        w ≤ max (MIN_MAX_DAILY_DOUBLE_WAGER_FACTOR * board.value_multiplier) p.score) →
      g.submit_wager ctrl w = (some Error.DailyDoubleWagerOutOfRange, g)) := by
  obtain ⟨mid, mod, players, state, nbi, ended⟩ := g
  simp only at hst
  subst hst
  simp only [Game.submit_wager, if_pos rfl]
  rw [show List.lookup ctrl players = some p from hlook]
  constructor
  · by_cases h5 : w < MIN_DAILY_DOUBLE_WAGER
    · simp [h5]
    · simp only [if_neg h5]
      by_cases hmax : max (MIN_MAX_DAILY_DOUBLE_WAGER_FACTOR * board.value_multiplier) p.score < w
      · simp [hmax]
        omega
      · simp [hmax]
        omega
  · intro hviol
    by_cases h5 : w < MIN_DAILY_DOUBLE_WAGER
    · simp [h5]
    · simp only [if_neg h5]
      have hmax : max (MIN_MAX_DAILY_DOUBLE_WAGER_FACTOR * board.value_multiplier) p.score < w := by
        omega
      simp [hmax]

/-- C3 witness: multiplier 200 and score 100 give maximum wager
`max (50*200) 100 = 10000`; wager 10000 is accepted and 10001 is rejected
with `DailyDoubleWagerOutOfRange`. -/
theorem submit_wager_daily_double_iff_witness :
    (exWagerGame.submit_wager 1 10000).1 = none ∧
    exWagerGame.submit_wager 1 10001 = (some Error.DailyDoubleWagerOutOfRange, exWagerGame) := by
  constructor
  · exact (submit_wager_daily_double_iff exWagerGame exBoard { category := 0, row := 2 } 1
      (exPlayer 101 100) 10000 rfl (by decide)).1.2 (by decide)
  · exact (submit_wager_daily_double_iff exWagerGame exBoard { category := 0, row := 2 } 1
      (exPlayer 101 100) 10001 rfl (by decide)).2 (by decide)

/-- C2: in `WaitingForBuzzer` on a row-2 square of a multiplier-200 board
(the square flipped by the selection step), after a registered score-0
player P buzzes the question value is `200*(2+1) = 600`; `answer(Correct)`
raises P's score to exactly 600, while `answer(Incorrect)` lowers it to
exactly -600 and returns to `WaitingForBuzzer` for the same location with
the original controller. -/
theorem buzz_then_answer_scoring (g : Game) (board : JeopardyBoard) (loc : Location)
    (ctrl P : PlayerId) (p : Player)
    (hst : g.state = GameState.WaitingForBuzzer board loc ctrl)
    (hrow : loc.row = 2)
    (hmult : board.value_multiplier = 200)
    (hlook : g.players.lookup P = some p)
    (hscore : p.score = 0)
    (hsq : (board.get_square loc).state = SquareState.Flipped) :
    (g.buzz P).1 = none ∧
    (g.buzz P).2.state = GameState.WaitingForAnswer board loc ctrl P 600 ∧
    (((g.buzz P).2.answer AnswerType.Correct).1 = none ∧
      ∃ p', ((g.buzz P).2.answer AnswerType.Correct).2.players.lookup P = some p' ∧
        p'.score = 600) ∧
    (((g.buzz P).2.answer AnswerType.Incorrect).1 = none ∧
      (∃ p', ((g.buzz P).2.answer AnswerType.Incorrect).2.players.lookup P = some p' ∧
        p'.score = -600) ∧
      ((g.buzz P).2.answer AnswerType.Incorrect).2.state =
        GameState.WaitingForBuzzer board loc ctrl) := by
  obtain ⟨mid, mod, players, state, nbi, ended⟩ := g
  simp only at hst
  subst hst
  have hvalue : board.get_square_value loc = 600 := by
    unfold JeopardyBoard.get_square_value
    rw [hmult, hrow]
    rfl
  have hbuzz : (Game.buzz ⟨mid, mod, players, GameState.WaitingForBuzzer board loc ctrl,
      nbi, ended⟩ P) =
      (none, ⟨mid, mod, players, GameState.WaitingForAnswer board loc ctrl P 600,
        nbi, ended⟩) := by
    simp only [Game.buzz]
    rw [show List.lookup P players = some p from hlook]
    simp [hvalue]
  rw [hbuzz]
  refine ⟨rfl, rfl, ?_, ?_⟩
  · simp only [Game.answer]
    rw [show List.lookup P players = some p from hlook]
    simp only [Square.finish, hsq]
    refine ⟨by trivial, ?_⟩
    refine ⟨{ p with score := p.score + 600 }, ?_, by simp [hscore]⟩
    simp [lookup_updPlayer_self, hlook]
  · simp only [Game.answer]
    rw [show List.lookup P players = some p from hlook]
    refine ⟨by trivial, ?_, by trivial⟩
    refine ⟨{ p with score := p.score - 600 }, ?_, by simp [hscore]⟩
    simp [lookup_updPlayer_self, hlook]

/-- C2 witness: the concrete buzz/answer run on the flipped row-2 square of
a multiplier-200 board with player 1 at score 0. -/
theorem buzz_then_answer_scoring_witness :
    (exBuzzGame.buzz 1).1 = none ∧
    (∃ p', ((exBuzzGame.buzz 1).2.answer AnswerType.Correct).2.players.lookup 1 = some p' ∧
      p'.score = 600) ∧
    ((exBuzzGame.buzz 1).2.answer AnswerType.Incorrect).2.state =
      GameState.WaitingForBuzzer exFlippedBoard { category := 0, row := 2 } 1 := by
  have h := buzz_then_answer_scoring exBuzzGame exFlippedBoard { category := 0, row := 2 }
    1 1 (exPlayer 101 0) rfl rfl (by decide) (by decide) rfl (by decide)
  exact ⟨h.1, h.2.2.1.2, h.2.2.2.2.2⟩

/-- C6: removing the controller in `WaitingForBuzzer` or
`WaitingForEnableBuzzer` reassigns the controller to one of the remaining
players keeping the state variant, board and location, when any player
remains; when none remains, the open square is force-finished and the game
falls back to `WaitingForSquareSelection` with no controller. -/
theorem remove_player_controller_handoff (g : Game) (board : JeopardyBoard) (loc : Location)
    (ctrl : PlayerId) (p : Player)
    (hlook : g.players.lookup ctrl = some p)
    (hb : board.locInBounds loc) :
    (g.state = GameState.WaitingForBuzzer board loc ctrl →
      (∀ q ps, g.players.filter (fun pr => pr.1 ≠ ctrl) = q :: ps →
        (g.remove_player ctrl).2.state = GameState.WaitingForBuzzer board loc q.1 ∧
        q ∈ g.players.filter (fun pr => pr.1 ≠ ctrl)) ∧
      (g.players.filter (fun pr => pr.1 ≠ ctrl) = [] →
        ∃ b', (g.remove_player ctrl).2.state =
            GameState.WaitingForSquareSelection b' none ∧
          (b'.get_square loc).state = SquareState.Finished)) ∧
    (g.state = GameState.WaitingForEnableBuzzer board loc ctrl →
      (∀ q ps, g.players.filter (fun pr => pr.1 ≠ ctrl) = q :: ps →
        (g.remove_player ctrl).2.state = GameState.WaitingForEnableBuzzer board loc q.1 ∧
        q ∈ g.players.filter (fun pr => pr.1 ≠ ctrl)) ∧
      (g.players.filter (fun pr => pr.1 ≠ ctrl) = [] →
        ∃ b', (g.remove_player ctrl).2.state =
            GameState.WaitingForSquareSelection b' none ∧
          (b'.get_square loc).state = SquareState.Finished)) := by
  obtain ⟨mid, mod, players, state, nbi, ended⟩ := g
  simp only at hlook ⊢
  have hfin : ((board.mutateSquare loc
      (fun sq => sq.set_flip_state SquareState.Finished)).get_square loc).state =
      SquareState.Finished := by
    rw [mutateSquare_get_square _ _ _ hb]
    rfl
  constructor
  · intro hst
    subst hst
    constructor
    · intro q ps hfil
      refine ⟨?_, by rw [hfil]; exact List.mem_cons_self q ps⟩
      simp only [Game.remove_player, hlook, Option.isNone_some, Bool.false_eq_true,
        if_false, hfil]
      simp
    · intro hfil
      refine ⟨_, ?_, hfin⟩
      simp only [Game.remove_player, hlook, Option.isNone_some, Bool.false_eq_true,
        if_false, hfil]
      simp
  · intro hst
    subst hst
    constructor
    · intro q ps hfil
      refine ⟨?_, by rw [hfil]; exact List.mem_cons_self q ps⟩
      simp only [Game.remove_player, hlook, Option.isNone_some, Bool.false_eq_true,
        if_false, hfil]
      simp
    · intro hfil
      refine ⟨_, ?_, hfin⟩
      simp only [Game.remove_player, hlook, Option.isNone_some, Bool.false_eq_true,
        if_false, hfil]
      simp

/-- C6 witness: removing controller 1 with player 2 remaining hands control
to 2; removing the lone controller force-finishes the square and falls back
to square selection with no controller. -/
theorem remove_player_controller_handoff_witness :
    (exRemoveTwoGame.remove_player 1).2.state =
      GameState.WaitingForBuzzer exFlippedBoard { category := 0, row := 2 } 2 ∧
    ∃ b', (exRemoveOneGame.remove_player 1).2.state =
        GameState.WaitingForSquareSelection b' none ∧
      (b'.get_square { category := 0, row := 2 }).state = SquareState.Finished := by
  constructor
  · exact ((remove_player_controller_handoff exRemoveTwoGame exFlippedBoard
      { category := 0, row := 2 } 1 (exPlayer 101 0) (by decide) (by decide)).1 rfl).1
      (2, exPlayer 102 0) [] (by decide) |>.1
  · exact ((remove_player_controller_handoff exRemoveOneGame exFlippedBoard
      { category := 0, row := 2 } 1 (exPlayer 101 0) (by decide) (by decide)).2 rfl).2
      (by decide)

/-- C7 counterexample: in `exSelectGame` the controller is player 1, yet a
select_square request by the moderator (id 0, who is not the controller) is
accepted, and one by the controller itself (id 1, correct token 101) is
rejected with `NotAllowed`: selection is authorized by moderator role, not
by board control. -/
theorem select_square_not_controller_gated :
    (server_select_square exSelectGame 0 100 0 0).1 = none ∧
    (server_select_square exSelectGame 1 101 0 0).1 = some Error.NotAllowed := by
  constructor
  · rfl
  · rfl

/-- C7 amended: from `WaitingForSquareSelection`, a select_square request is
valid only for the moderator: any caller who does not authenticate as the
moderator is rejected with `NotAllowed` and the game is unchanged, while a
moderator request on a Normal square (with a controller present) is
accepted. -/
theorem select_square_moderator_only (g : Game) (pid : PlayerId) (auth : AuthToken)
    (category row : Nat) :
    (g.auth_and_get_player_type pid auth ≠ some PlayerType.Moderator →
      server_select_square g pid auth category row = (some Error.NotAllowed, g)) ∧
    (∀ board ctrl, g.auth_and_get_player_type pid auth = some PlayerType.Moderator →
      g.state = GameState.WaitingForSquareSelection board (some ctrl) →
      (board.get_square { category := category, row := row }).state = SquareState.Normal →
      (server_select_square g pid auth category row).1 = none) := by
  constructor
  · intro h
    simp [server_select_square, h]
  · intro board ctrl hmod hst hsq
    simp only [server_select_square, if_pos hmod, Location.new]
    obtain ⟨mid, mod, players, state, nbi, ended⟩ := g
    simp only at hst
    subst hst
    simp only [Game.select_square, Square.flip, hsq]
    by_cases hdd : ((board.mutateSquare { category := category, row := row }
        (fun _ => { board.get_square { category := category, row := row } with
          state := if (board.get_square { category := category, row := row }).is_daily_double
                   then SquareState.DailyDoubleRevealed
                   else SquareState.Flipped })).get_square
        { category := category, row := row }).is_daily_double
    · simp [hdd]
    · simp [hdd]

/-- C7 amended witness: the moderator of `exSelectGame` (id 0, token 100)
gets a successful selection of the Normal square (0, 0), and a stranger
token is rejected leaving the game unchanged. -/
theorem select_square_moderator_only_witness :
    (server_select_square exSelectGame 0 100 0 0).1 = none ∧
    server_select_square exSelectGame 0 999 0 0 = (some Error.NotAllowed, exSelectGame) := by
  constructor
  · exact (select_square_moderator_only exSelectGame 0 100 0 0).2 exBoard 1
      (by decide) rfl (by decide)
  · exact (select_square_moderator_only exSelectGame 0 999 0 0).1 (by decide)

/-- Flat-index recovery `i ↦ (i / 5, i % 5)` is injective. -/
theorem locOf_injective :
    Function.Injective (fun i : Nat =>
      ({ row := i % CATEGORY_HEIGHT, category := i / CATEGORY_HEIGHT } : Location)) := by
  intro i j hij
  simp only [Location.mk.injEq, CATEGORY_HEIGHT] at hij
  have hi := Nat.div_add_mod i 5
  have hj := Nat.div_add_mod j 5
  omega

/-- C5: `gen_random_locations` fails exactly when `n` exceeds
`categories * 5`; otherwise it returns `n` pairwise-distinct locations,
each with `row < 5` and `category < categories`, and the result depends
only on the key stream the generator produces for the
`categories * 5` candidates (so a fixed seed reproduces the locations). -/
theorem gen_random_locations_spec (keys keys' : Nat → ℚ) (n categories : Nat)
    (hagree : ∀ i < categories * CATEGORY_HEIGHT, keys i = keys' i) :
    (Location.gen_random_locations keys n categories = none ↔
      n > categories * CATEGORY_HEIGHT) ∧
    (∀ L, Location.gen_random_locations keys n categories = some L →
      L.length = n ∧ L.Nodup ∧
        ∀ loc ∈ L, loc.row < CATEGORY_HEIGHT ∧ loc.category < categories) ∧
    Location.gen_random_locations keys n categories =
      Location.gen_random_locations keys' n categories := by
  have hdet : Location.gen_random_locations keys n categories =
      Location.gen_random_locations keys' n categories := by
    unfold Location.gen_random_locations
    have : (List.range (categories * CATEGORY_HEIGHT)).map (fun i => (i, keys i)) =
        (List.range (categories * CATEGORY_HEIGHT)).map (fun i => (i, keys' i)) :=
      List.map_congr_left (fun i hi => by rw [hagree i (List.mem_range.mp hi)])
    rw [this]
  refine ⟨?_, ?_, hdet⟩
  · unfold Location.gen_random_locations
    by_cases h : n > categories * CATEGORY_HEIGHT <;> simp [h]
  · intro L hL
    by_cases h : n > categories * CATEGORY_HEIGHT
    · rw [Location.gen_random_locations, if_pos h] at hL
      exact absurd hL (by simp)
    · rw [Location.gen_random_locations, if_neg h] at hL
      set N := categories * CATEGORY_HEIGHT with hN
      set cand := (List.range N).map (fun i => (i, keys i)) with hcand
      set sorted := cand.mergeSort (fun a b => decide (b.2 ≤ a.2)) with hsorted
      have hperm : sorted.Perm cand := List.mergeSort_perm cand _
      have hfst : cand.map Prod.fst = List.range N := by
        rw [hcand, List.map_map]
        exact List.map_id _
      have hsortfst : (sorted.map Prod.fst).Perm (List.range N) := by
        rw [← hfst]
        exact hperm.map Prod.fst
      have hlen : sorted.length = N := by
        have := hperm.length_eq
        simpa [hcand] using this
      obtain rfl : L = ((sorted.take n).map
          (fun item => Location.mk (item.1 / CATEGORY_HEIGHT) (item.1 % CATEGORY_HEIGHT))) :=
        (Option.some_injective _ hL).symm
      refine ⟨?_, ?_, ?_⟩
      · simp [hlen]
        omega
      · have hnd : ((sorted.take n).map Prod.fst).Nodup := by
          rw [List.map_take]
          exact ((List.take_sublist n _).nodup (hsortfst.symm.nodup (List.nodup_range N)))
        have : ((sorted.take n).map
            (fun item => Location.mk (item.1 / CATEGORY_HEIGHT) (item.1 % CATEGORY_HEIGHT))) =
            ((sorted.take n).map Prod.fst).map
              (fun i => Location.mk (i / CATEGORY_HEIGHT) (i % CATEGORY_HEIGHT)) := by
          rw [List.map_map]
          rfl
        rw [this]
        exact hnd.map locOf_injective
      · intro loc hloc
        obtain ⟨item, hitem, rfl⟩ := List.mem_map.mp hloc
        have hmem : item ∈ cand := hperm.mem_iff.mp ((List.take_sublist n sorted).subset hitem)
        obtain ⟨i, hi, rfl⟩ := List.mem_map.mp hmem
        have hiN : i < N := List.mem_range.mp hi
        constructor
        · exact Nat.mod_lt _ (by norm_num [CATEGORY_HEIGHT])
        · simp only
          rw [Nat.div_lt_iff_lt_mul (by norm_num [CATEGORY_HEIGHT] : 0 < CATEGORY_HEIGHT)]
          exact hiN

/-- C5 witness: a concrete key stream at a 2-category board, sampling 3 of
the 10 squares. -/
theorem gen_random_locations_spec_witness :
    (Location.gen_random_locations (fun i => (i : ℚ) / 10) 3 2 = none ↔ 3 > 2 * 5) ∧
    (∀ L, Location.gen_random_locations (fun i => (i : ℚ) / 10) 3 2 = some L →
      L.length = 3 ∧ L.Nodup ∧
        ∀ loc ∈ L, loc.row < CATEGORY_HEIGHT ∧ loc.category < 2) := by
  have h := gen_random_locations_spec (fun i => (i : ℚ) / 10) (fun i => (i : ℚ) / 10) 3 2
    (fun i _ => rfl)
  exact ⟨by simpa [CATEGORY_HEIGHT] using h.1, h.2.1⟩

/-- In a duplicate-free wordlist, position retrieves the index used by the
encoder. -/
theorem wordPosition_getD_of_nodup (words : List String) (hnd : words.Nodup)
    (i : Nat) (h : i < words.length) :
    wordPosition words (words.getD i "") = some i := by
  induction words generalizing i with
  | nil => simp at h
  | cons w ws ih =>
      cases i with
      | zero => simp [wordPosition]
      | succ i =>
          have hi : i < ws.length := by simpa using h
          have hmem : ws.getD i "" ∈ ws := by
            rw [List.getD_eq_getElem ws "" hi]
            exact List.getElem_mem _
          have hw : (w == ws.getD i "") = false := by
            apply beq_false_of_ne
            intro he
            exact (List.nodup_cons.mp hnd).1 (he ▸ hmem)
          have hrec := ih (List.nodup_cons.mp hnd).2 i hi
          rw [List.getD_cons_succ]
          rw [wordPosition, hw]
          simp only [Bool.false_eq_true, if_false, hrec, Option.map_some']

/-- Bit-level description of orBits: it holds exactly the bits of x lying
in the window from j*b (inclusive) to (j+m)*b (exclusive), the windows
being inside the 32-bit range. -/
theorem orBits_testBit (x b : Nat) (hx : x < 2 ^ 32) :
    ∀ (m j t : Nat), (∀ k, k < m → (j + k) * b < 32) →
      ((orBits x b m j).testBit t = true ↔
        j * b ≤ t ∧ t < (j + m) * b ∧ x.testBit t = true) := by
  intro m
  induction m with
  | zero =>
      intro j t _
      simp only [orBits, Nat.zero_testBit, Bool.false_eq_true, false_iff]
      rintro ⟨h1, h2, _⟩
      simp only [Nat.add_zero] at h2
      omega
  | succ m ih =>
      intro j t hlt
      have hbit32 : ∀ s, 32 ≤ s → x.testBit s = false := fun s hs =>
        Nat.testBit_eq_false_of_lt
          (lt_of_lt_of_le hx (Nat.pow_le_pow_right (by norm_num) hs))
      have hj32 : j * b < 32 := by
        have h0 := hlt 0 (by omega)
        simpa using h0
      have hrest := ih (j + 1) t (fun k hk => by
        have h2 := hlt (k + 1) (by omega)
        have he : j + (k + 1) = j + 1 + k := by omega
        rwa [he] at h2)
      simp only [orBits, Nat.testBit_or, Bool.or_eq_true, hrest,
        Nat.testBit_mod_two_pow, Nat.testBit_shiftLeft, Nat.testBit_and,
        Nat.testBit_shiftRight, Nat.testBit_two_pow_sub_one, Bool.and_eq_true,
        decide_eq_true_eq, ge_iff_le, Nat.add_mul, Nat.one_mul]
      by_cases hjt : j * b ≤ t
      · rw [Nat.add_sub_cancel' hjt]
        by_cases hbt : x.testBit t = true
        · have ht32 : t < 32 := by
            rcases Nat.lt_or_ge t 32 with hc | hc
            · exact hc
            · rw [hbit32 t hc] at hbt
              cases hbt
          simp only [hbt, ht32, and_true, true_and]
          omega
        · have hbf : x.testBit t = false := by simpa using hbt
          simp only [hbf, Bool.false_eq_true, and_false, false_and, or_false,
            false_or, iff_false, false_iff]
      · constructor
        · rintro (⟨-, hc, -⟩ | ⟨hc, -⟩) <;> omega
        · rintro ⟨hc, -⟩
          omega

/-- Decoding the encoder's word sequence accumulates exactly orBits. -/
theorem seedDecodeLoop_encode (words : List String) (hnd : words.Nodup) (b x : Nat) :
    ∀ (m j v : Nat), (∀ k, k < m → (j + k) * b < 32) →
      (∀ k, k < m → (x >>> ((j + k) * b)) &&& (2 ^ b - 1) < words.length) →
      seedDecodeLoop words b
        ((List.range m).map
          (fun k => words.getD ((x >>> ((j + k) * b)) &&& (2 ^ b - 1)) "")) v (j * b) =
        some (v ||| orBits x b m j) := by
  intro m
  induction m with
  | zero =>
      intro j v _ _
      simp [seedDecodeLoop, orBits]
  | succ m ih =>
      intro j v hoff hlen
      rw [List.range_succ_eq_map, List.map_cons, List.map_map]
      have hidx0 : (x >>> (j * b)) &&& (2 ^ b - 1) < words.length := by
        have h0 := hlen 0 (by omega)
        simpa using h0
      have hj32 : j * b < 32 := by
        have h0 := hoff 0 (by omega)
        simpa using h0
      simp only [Nat.add_zero, seedDecodeLoop,
        wordPosition_getD_of_nodup words hnd _ hidx0]
      rw [if_neg (by omega)]
      have hmap : (List.range m).map ((fun k =>
          words.getD ((x >>> ((j + k) * b)) &&& (2 ^ b - 1)) "") ∘ Nat.succ) =
          (List.range m).map (fun k =>
          words.getD ((x >>> ((j + 1 + k) * b)) &&& (2 ^ b - 1)) "") :=
        List.map_congr_left (fun k _ => by
          simp only [Function.comp_apply]
          have he : j + Nat.succ k = j + 1 + k := by omega
          rw [he])
      rw [hmap]
      have harg : j * b + b = (j + 1) * b := by ring
      rw [harg]
      rw [ih (j + 1) (v ||| (((x >>> (j * b)) &&& (2 ^ b - 1)) <<< (j * b)) % 2 ^ 32)
        (fun k hk => by
          have h2 := hoff (k + 1) (by omega)
          have he : j + (k + 1) = j + 1 + k := by omega
          rwa [he] at h2)
        (fun k hk => by
          have h2 := hlen (k + 1) (by omega)
          have he : j + (k + 1) = j + 1 + k := by omega
          rwa [he] at h2)]
      rw [orBits, Nat.or_assoc]

/-- C4: the seed codec round-trips: decoding the word encoding of any
32-bit value x returns exactly x.  The wordlist is a parameter: the claim
holds for every duplicate-free list of at least two words, in particular
for the memorable_wordlist table the crate links in. -/
theorem seed_decode_encode_roundtrip (words : List String) (hnd : words.Nodup)
    (hlen : 2 ≤ words.length) (x : Nat) (hx : x < 2 ^ 32) :
    Seed.fromWords words (Seed.toWords words (Seed.with_seed x)) =
      some (Seed.with_seed x) := by
  have hb1 : 1 ≤ Nat.log2 words.length := by
    rw [Nat.log2]
    simp [hlen]
  have htw : Seed.toWords words (Seed.with_seed x) =
      (List.range (seedWordCount (Nat.log2 words.length))).map
        (fun k => words.getD ((x >>> (k * Nat.log2 words.length)) &&&
          (2 ^ Nat.log2 words.length - 1)) "") := rfl
  have hfw : Seed.fromWords words (Seed.toWords words (Seed.with_seed x)) =
      if (Seed.toWords words (Seed.with_seed x)).length * Nat.log2 words.length < 32
      then none
      else (seedDecodeLoop words (Nat.log2 words.length)
        (Seed.toWords words (Seed.with_seed x)) 0 0).map Seed.with_seed := rfl
  set b := Nat.log2 words.length with hb
  clear_value b
  set m := seedWordCount b with hm
  clear_value m
  have hdiv := Nat.div_add_mod (32 + b - 1) b
  have hmod : (32 + b - 1) % b < b := Nat.mod_lt _ (by omega)
  have hq : b * m = 32 + b - 1 - (32 + b - 1) % b := by
    rw [hm, seedWordCount]
    omega
  have hmb : 32 ≤ m * b := by
    rw [Nat.mul_comm]
    omega
  have hm1 : (m - 1) * b < 32 := by
    rw [Nat.sub_mul, Nat.one_mul, Nat.mul_comm]
    omega
  have hoff : ∀ k, k < m → (0 + k) * b < 32 := by
    intro k hk
    rw [Nat.zero_add]
    have hle : k ≤ m - 1 := by omega
    have hmul := Nat.mul_le_mul_right b hle
    omega
  have hwlen : ∀ k, k < m → (x >>> ((0 + k) * b)) &&& (2 ^ b - 1) < words.length := by
    intro k _
    have h1 : (x >>> ((0 + k) * b)) &&& (2 ^ b - 1) ≤ 2 ^ b - 1 := Nat.and_le_right
    have h2 : 2 ^ b ≤ words.length := by
      rw [hb]
      exact Nat.log2_self_le (by omega)
    have h3 : 0 < 2 ^ b := Nat.pos_pow_of_pos b (by omega)
    omega
  have hloop := seedDecodeLoop_encode words hnd b x m 0 0 hoff hwlen
  simp only [Nat.zero_add, Nat.zero_mul, Nat.zero_or] at hloop
  have horb : orBits x b m 0 = x := by
    apply Nat.eq_of_testBit_eq
    intro t
    have hiff := orBits_testBit x b hx m 0 t hoff
    simp only [Nat.zero_mul, Nat.zero_add, Nat.zero_le, true_and] at hiff
    by_cases hbt : x.testBit t = true
    · have ht32 : t < 32 := by
        rcases Nat.lt_or_ge t 32 with hc | hc
        · exact hc
        · rw [Nat.testBit_eq_false_of_lt
            (lt_of_lt_of_le hx (Nat.pow_le_pow_right (by norm_num) hc))] at hbt
          cases hbt
      rw [hbt, hiff.mpr ⟨by omega, hbt⟩]
    · have hbf : x.testBit t = false := by simpa using hbt
      have hof : (orBits x b m 0).testBit t = false := by
        rcases Bool.eq_false_or_eq_true ((orBits x b m 0).testBit t) with hc | hc
        · exact absurd (hiff.mp hc).2 hbt
        · exact hc
      rw [hbf, hof]
  rw [hfw, htw]
  simp only [List.length_map, List.length_range]
  rw [if_neg (by omega)]
  rw [hloop, horb]
  rfl

/-- C4 witness: the concrete two-word list (b = 1, 32 words emitted) at the
32-bit value 3141592653. -/
theorem seed_decode_encode_roundtrip_witness :
    Seed.fromWords ["alpha", "bravo"]
      (Seed.toWords ["alpha", "bravo"] (Seed.with_seed 3141592653)) =
      some (Seed.with_seed 3141592653) :=
  seed_decode_encode_roundtrip ["alpha", "bravo"] (by decide) (by decide)
    3141592653 (by norm_num)

end Jeopardy
